import Mathlib

/-!
# The `set` command of the command-line client (`cli/src/setcommand.cpp`)

A shallow embedding of `matchSpecifiedLocation`, `buildRpcArgs` and
`SetCommand::exec`, together with the properties of the request they build.

Effects are made explicit: every function returns the list of observable
events it produced (lines written with `errln()`, records logged with
`qWarning()` / `qInfo()`, the construction of the client, reads of the daemon
state, the RPC call, `app.exit`) next to its result.
-/

namespace SetCommand

/-! ## JSON values -/

/-- JSON values as built by this command (`QJsonValue`).  Numbers never arise
in the command; integers stand in for them.  `QJsonValue::Undefined`, which is
no JSON value, is left out. -/
inductive QJsonValue where
  | null
  | bool (b : Bool)
  | number (n : Int)
  | string (s : String)
  | array (items : List QJsonValue)
  | object (members : List (String × QJsonValue))

/-- Ordered list of JSON values (`QJsonArray`). -/
abbrev QJsonArray := List QJsonValue

/-- Key/value members of a JSON object (`QJsonObject`). -/
abbrev QJsonObject := List (String × QJsonValue)

/-- `QJsonObject::insert(key, value)`: the member `key` now holds `value`,
replacing an earlier member with the same key. -/
def QJsonObject.insert (o : QJsonObject) (key : String) (value : QJsonValue) : QJsonObject :=
  (key, value) :: o.filter (fun m => m.1 != key)

/-- `QJsonObject::find(key)`: the value stored under `key`, `none` when the
object has no such member. -/
def QJsonObject.value? (o : QJsonObject) (key : String) : Option QJsonValue :=
  (o.find? (fun m => m.1 == key)).map (fun m => m.2)

/-- `QJsonObject::contains(key)`. -/
def QJsonObject.contains (o : QJsonObject) (key : String) : Bool :=
  o.any (fun m => m.1 == key)

/-! ## Daemon state seen by the client -/

/-- A server location of the daemon's list: its stable `id()` and the name the
command line matches against, `GetSetValue::getRegionCliName(pLocation)`
(declared in `getcommand.h`, carried here as a field). -/
structure Location where
  id : String
  cliName : String
deriving DecidableEq, Repr

/-- `DaemonData`: the locations in iteration order.  Entries are shared
pointers, so an entry may be null (`none`). -/
structure DaemonData where
  locations : List (Option Location)
deriving DecidableEq, Repr

/-- `DaemonSettings`: what `getDefaultDebugLogging()` returns. -/
structure DaemonSettings where
  defaultDebugLogging : QJsonValue

/-- The state reachable through `client.connection()` once connected. -/
structure CliClient where
  data : DaemonData
  settings : DaemonSettings

/-! ## Constants shared with the `get` command -/

/-- Modelled from the spec: the constant `GetSetType::debugLogging`, declared
in `getcommand.h`; the spec spells the setting `debugLogging`. -/
def GetSetType.debugLogging : String := "debugLogging"

/-- Modelled from the spec: the constant `GetSetType::region`, declared in
`getcommand.h`; the spec spells the setting `region`. -/
def GetSetType.region : String := "region"

/-- Modelled from the spec: the constant `GetSetValue::locationAuto`, declared
in `getcommand.h`; the spec gives the sentinel as `"auto"`. -/
def GetSetValue.locationAuto : String := "auto"

/-! ## Errors, events and results -/

/-- `Error::Code`; only `CliInvalidArgs` is named by this command. -/
inductive Code where
  | CliInvalidArgs
  | other (n : Nat)
deriving DecidableEq, Repr

/-- One token streamed into an output line. -/
inductive Item where
  | str (s : String)
  | err (c : Code)
deriving DecidableEq, Repr

/-- Observable events, in program order. -/
inductive Event where
  /-- A line written with `errln()`. -/
  | errln (line : List Item)
  /-- A record logged with `qWarning()`. -/
  | qWarning (line : List Item)
  /-- A record logged with `qInfo()`. -/
  | qInfo (line : List Item)
  /-- Construction of `CliClient`: the connection attempt. -/
  | newClient
  /-- A call of `data.locations()`. -/
  | readLocations
  /-- A call of `settings.getDefaultDebugLogging()`. -/
  | readSettings
  /-- A call of `connection().call(method, {rpcArgs})`; `rpcArgs` is the array
  written between the braces. -/
  | call (method : String) (rpcArgs : QJsonArray)
  /-- A call of `app.exit(code)`. -/
  | exit (code : Int)

/-- Result of a function that may return, throw an `Error`, or stop at a
failed `Q_ASSERT`. -/
inductive Result (α : Type) where
  | ok (a : α)
  | throw (c : Code)
  | assertFailed

/-! ## `matchSpecifiedLocation` -/

/-- The loop of `matchSpecifiedLocation` over the location list: the id of the
first non-null entry whose CLI name equals `location`; after the loop, the
warning and the empty string. -/
def matchLoop (location : String) : List (Option Location) → List Event × String
  | [] =>
    ([.qWarning [.str "No match found for specified location:", .str location]], "")
  | pServerLocation :: rest =>
    match pServerLocation with
    | some l => if location = l.cliName then ([], l.id) else matchLoop location rest
    | none => matchLoop location rest

/-- `matchSpecifiedLocation(data, location)`. -/
def matchSpecifiedLocation (data : DaemonData) (location : String) : List Event × String :=
  if location = GetSetValue.locationAuto then
    ([], GetSetValue.locationAuto)
  else
    let r := matchLoop location data.locations
    (.readLocations :: r.1, r.2)

/-! ## Helpers declared outside this file -/

/-- Functions and constants this file uses from `getcommand.h`, `clicommand.h`
and `cliclient.h`, taken as parameters. -/
structure Helpers where
  /-- `GetSetValue::parseBooleanParam`: the parsed flag, or a thrown error. -/
  parseBooleanParam : String → Except Code Bool
  /-- `mapErrorCode`: the exit code of an error code. -/
  mapErrorCode : Code → Int
  /-- `traceRpcError`: the exit code for an error returned by the daemon. -/
  traceRpcError : Code → Int
  /-- `CliExitCode::Success`. -/
  success : Int

/-- What the daemon answers to the `applySettings` call. -/
inductive Reply where
  | noReply
  | success
  | error (c : Code)
deriving DecidableEq, Repr

/-- The world around one run of the command: whether `firstConnected` is
emitted (and with which daemon state), and the answer to the RPC. -/
structure Daemon where
  firstConnected : Option CliClient
  applySettings : QJsonArray → Reply

/-! ## `buildRpcArgs` -/

/-- The supported-settings registry `_setSupportedTypes`, a `std::map` from
setting name to description, listed in key order. -/
def _setSupportedTypes : List (String × String) :=
  [(GetSetType.debugLogging, "Enable or disable debug logging."),
   (GetSetType.region, "Select a region (or \"auto\")")]

/-- `std::map::count(key)`. -/
def count (m : List (String × String)) (key : String) : Nat :=
  m.countP (fun e => e.1 == key)

/-- `buildRpcArgs(client, params)`.  `Q_ASSERT(params.length() == 3)` is the
outer `match`; `params[1]` is `type` and `params[2]` is `value`.  Assertions
are taken as enabled: a failed `Q_ASSERT` ends the function with
`assertFailed`, also at the closing `Q_ASSERT(false)`, which the source follows
with a `throw` of `CliInvalidArgs` for builds without assertions.
`id.isEmpty()` is the comparison with the empty string. -/
def buildRpcArgs (h : Helpers) (client : CliClient) (params : List String) :
    List Event × Result QJsonArray :=
  match params with
  | [_, type, value] =>
    if type = GetSetType.region then
      let m := matchSpecifiedLocation client.data value
      let id := m.2
      if id = "" then
        (m.1 ++ [.errln [.str "Unknown region:", .str value]], .throw .CliInvalidArgs)
      else
        let newSettings : QJsonObject := QJsonObject.insert [] "location" (.string id)
        (m.1 ++ [.qInfo [.str "Setting location to ", .str id, .str " (", .str value, .str ")"]],
          .ok [.object newSettings, .bool true])
    else if type = GetSetType.debugLogging then
      match h.parseBooleanParam value with
      | .error c => ([], .throw c)
      | .ok true =>
        let newValue := client.settings.defaultDebugLogging
        let newSettings : QJsonObject := QJsonObject.insert [] "debugLogging" newValue
        ([.readSettings], .ok [.object newSettings])
      | .ok false =>
        let newValue := QJsonValue.null
        let newSettings : QJsonObject := QJsonObject.insert [] "debugLogging" newValue
        ([], .ok [.object newSettings])
    else
      ([], .assertFailed)
  | _ => ([], .assertFailed)

/-! ## `SetCommand::exec` -/

/-- How a run of `exec` ends. -/
inductive Outcome where
  /-- An `Error` leaves `exec`. -/
  | thrown (c : Code)
  /-- The event loop ends through `app.exit(code)`; `app.exec()` returns it. -/
  | exited (code : Int)
  /-- No completion arrives; `CliTimeout` ends the wait. -/
  | timedOut
  /-- A failed assertion: `Q_ASSERT` in `buildRpcArgs`, or the range check of
  `QList::operator[]`. -/
  | assertFailed
deriving DecidableEq, Repr

/-- The handler connected to `CliClient::firstConnected`, run with the state of
the connected client. -/
def onFirstConnected (h : Helpers) (d : Daemon) (client : CliClient) (params : List String) :
    List Event × Outcome :=
  let b := buildRpcArgs h client params
  match b.2 with
  | .ok rpcArgs =>
    match d.applySettings rpcArgs with
    | .error c =>
      (b.1 ++ [.call "applySettings" rpcArgs, .exit (h.traceRpcError c)],
        .exited (h.traceRpcError c))
    | .success =>
      (b.1 ++ [.call "applySettings" rpcArgs, .qInfo [.str "Setting change succeeded"],
        .exit h.success], .exited h.success)
    | .noReply => (b.1 ++ [.call "applySettings" rpcArgs], .timedOut)
  | .throw c =>
    (b.1 ++ [.qWarning [.str "Failing with error:", .err c], .exit (h.mapErrorCode c)],
      .exited (h.mapErrorCode c))
  | .assertFailed => (b.1, .assertFailed)

/-- `SetCommand::exec(params, app)`.  The usage line streams `params[0]`, which
`QList::operator[]` range-checks; after the length check `params[1]` is in
range. -/
def exec (h : Helpers) (d : Daemon) (params : List String) : List Event × Outcome :=
  if params.length ≠ 3 then
    match params[0]? with
    | some name =>
      ([.errln [.str "Usage:", .str name, .str "<type> <value>"]], .thrown .CliInvalidArgs)
    | none => ([], .assertFailed)
  else if count _setSupportedTypes (params.getD 1 "") = 0 then
    ([.errln [.str "Unknown type:", .str (params.getD 1 "")]], .thrown .CliInvalidArgs)
  else
    match d.firstConnected with
    | none => ([.newClient], .timedOut)
    | some client =>
      let r := onFirstConnected h d client params
      (.newClient :: r.1, r.2)

/-! ## Observations on traces and requests -/

/-- Whether the event is the construction of the client (a connection attempt). -/
def Event.isNewClient : Event → Bool
  | .newClient => true
  | _ => false

/-- Whether the event reads the daemon state (locations or settings). -/
def Event.isRead : Event → Bool
  | .readLocations => true
  | .readSettings => true
  | _ => false

/-- Whether the event is an RPC call. -/
def Event.isCall : Event → Bool
  | .call _ _ => true
  | _ => false

/-- The `reconnectIfNeeded` argument of an `applySettings` argument list: the
second element when it is a boolean, `false` when it is absent. -/
def reconnectIfNeeded (rpcArgs : QJsonArray) : Bool :=
  match rpcArgs with
  | _ :: .bool b :: _ => b
  | _ => false

/-- Whether a list entry is a (non-null) location whose CLI name is `name`. -/
def hasCliName (name : String) (p : Option Location) : Bool :=
  match p with
  | some l => name == l.cliName
  | none => false

/-- The result is the request `[patch, true]` whose patch has the member
`location` with the string `id` as value. -/
def IsRegionRequest (r : Result QJsonArray) (id : String) : Prop :=
  ∃ patch : QJsonObject, r = .ok [.object patch, .bool true] ∧
    patch.value? "location" = some (.string id)

/-- A sample of the helper functions: booleans are written `true` / `false`,
`CliInvalidArgs` maps to exit code 2, every other error to 1. -/
def sampleHelpers : Helpers where
  parseBooleanParam := fun s =>
    if s = "true" then .ok true else if s = "false" then .ok false else .error .CliInvalidArgs
  mapErrorCode := fun c => match c with
    | .CliInvalidArgs => 2
    | .other _ => 1
  traceRpcError := fun _ => 1
  success := 0

/-- A sample connected client: two locations named `us-east`, one named
`auto`, one with an empty id, and a null entry. -/
def sampleClient : CliClient where
  data := ⟨[some ⟨"us_east_1", "us-east"⟩, none, some ⟨"us_east_2", "us-east"⟩,
    some ⟨"de_auto", "auto"⟩, some ⟨"", "nowhere"⟩, some ⟨"fr_paris", "france"⟩]⟩
  settings := ⟨.array [.string "*.debug=true"]⟩

/-- A sample daemon: it connects with `sampleClient` and accepts every call. -/
def sampleDaemon : Daemon where
  firstConnected := some sampleClient
  applySettings := fun _ => .success

/-! ## Properties of `matchSpecifiedLocation` -/

theorem matchLoop_no_match (name : String) (locs : List (Option Location))
    (hno : ∀ l, some l ∈ locs → l.cliName ≠ name) :
    matchLoop name locs =
      ([.qWarning [.str "No match found for specified location:", .str name]], "") := by
  induction locs with
  | nil => rfl
  | cons p rest ih =>
    have hrest : ∀ l, some l ∈ rest → l.cliName ≠ name :=
      fun l hl => hno l (List.mem_cons_of_mem _ hl)
    cases p with
    | none => simpa [matchLoop] using ih hrest
    | some l =>
      have hl : name ≠ l.cliName := fun e => hno l (List.mem_cons_self _ _) e.symm
      simpa [matchLoop, hl] using ih hrest

theorem matchLoop_first_match (name : String) (pre post : List (Option Location))
    (l : Location) (hpre : ∀ y, some y ∈ pre → y.cliName ≠ name) (hl : l.cliName = name) :
    matchLoop name (pre ++ some l :: post) = ([], l.id) := by
  induction pre with
  | nil => simp [matchLoop, hl]
  | cons p rest ih =>
    have hrest : ∀ y, some y ∈ rest → y.cliName ≠ name :=
      fun y hy => hpre y (List.mem_cons_of_mem _ hy)
    cases p with
    | none => simpa [matchLoop] using ih hrest
    | some y =>
      have hy : name ≠ y.cliName := fun e => hpre y (List.mem_cons_self _ _) e.symm
      simpa [matchLoop, hy] using ih hrest

theorem exists_first_match (name : String) (locs : List (Option Location))
    (hex : ∃ l, some l ∈ locs ∧ l.cliName = name) :
    ∃ pre l post, locs = pre ++ some l :: post ∧
      (∀ y, some y ∈ pre → y.cliName ≠ name) ∧ l.cliName = name := by
  induction locs with
  | nil => obtain ⟨l, hl, _⟩ := hex; simp at hl
  | cons p rest ih =>
    by_cases hp : ∃ l, p = some l ∧ l.cliName = name
    · obtain ⟨l, rfl, hl⟩ := hp
      exact ⟨[], l, rest, rfl, by simp, hl⟩
    · have hex2 : ∃ l, some l ∈ rest ∧ l.cliName = name := by
        obtain ⟨l, hl, hn⟩ := hex
        rcases List.mem_cons.mp hl with h | h
        · exact absurd ⟨l, h.symm, hn⟩ hp
        · exact ⟨l, h, hn⟩
      obtain ⟨pre, l, post, he, hpre, hl⟩ := ih hex2
      refine ⟨p :: pre, l, post, by simp [he], ?_, hl⟩
      intro y hy
      rcases List.mem_cons.mp hy with h | h
      · exact fun e => hp ⟨y, h.symm, e⟩
      · exact hpre y h

theorem filter_singleton_split (name : String) (locs : List (Option Location)) (l : Location)
    (h1 : locs.filter (hasCliName name) = [some l]) :
    ∃ pre post, locs = pre ++ some l :: post ∧
      (∀ y, some y ∈ pre → y.cliName ≠ name) ∧ l.cliName = name := by
  have hmem : some l ∈ locs.filter (hasCliName name) := by simp [h1]
  have hl : l.cliName = name := by
    have := (List.mem_filter.mp hmem).2
    simp only [hasCliName, beq_iff_eq] at this
    exact this.symm
  obtain ⟨pre, l2, post, he, hpre, hl2⟩ :=
    exists_first_match name locs ⟨l, (List.mem_filter.mp hmem).1, hl⟩
  have hl2mem : some l2 ∈ locs.filter (hasCliName name) := by
    refine List.mem_filter.mpr ⟨by simp [he], ?_⟩
    simp [hasCliName, hl2]
  rw [h1] at hl2mem
  have : l2 = l := by simpa using hl2mem
  subst this
  exact ⟨pre, post, he, hpre, hl⟩

theorem matchSpecifiedLocation_at_first (data : DaemonData) (name : String)
    (pre post : List (Option Location)) (l : Location)
    (hauto : name ≠ GetSetValue.locationAuto) (he : data.locations = pre ++ some l :: post)
    (hpre : ∀ y, some y ∈ pre → y.cliName ≠ name) (hl : l.cliName = name) :
    matchSpecifiedLocation data name = ([.readLocations], l.id) := by
  simp [matchSpecifiedLocation, hauto, he, matchLoop_first_match name pre post l hpre hl]

theorem matchSpecifiedLocation_no_match (data : DaemonData) (name : String)
    (hauto : name ≠ GetSetValue.locationAuto)
    (hno : ∀ l, some l ∈ data.locations → l.cliName ≠ name) :
    matchSpecifiedLocation data name =
      ([.readLocations,
        .qWarning [.str "No match found for specified location:", .str name]], "") := by
  simp [matchSpecifiedLocation, hauto, matchLoop_no_match name data.locations hno]

/-! ## C2: `set region auto` -/

/-- C2: for every daemon state, `matchSpecifiedLocation` maps the name `auto`
to the id `auto`, without reading the location list; the result is the same
for any two daemon states. -/
theorem matchSpecifiedLocation_auto :
    (∀ data : DaemonData, (matchSpecifiedLocation data "auto").2 = "auto") ∧
    (∀ data : DaemonData, (matchSpecifiedLocation data "auto").1.countP Event.isRead = 0) ∧
    (∀ data data2 : DaemonData,
      matchSpecifiedLocation data "auto" = matchSpecifiedLocation data2 "auto") := by
  refine ⟨?_, ?_, ?_⟩ <;> intros <;> simp [matchSpecifiedLocation, GetSetValue.locationAuto]

/-! ## C7: the first matching location wins -/

/-- C7: when the name is not `auto` and some location of the list has it as
CLI name, the list splits at the first such location (no entry before it has
that name) and `matchSpecifiedLocation` returns the id of that location,
whatever follows it. -/
theorem matchSpecifiedLocation_first_in_order (data : DaemonData) (name : String)
    (hauto : name ≠ "auto")
    (hex : ∃ l, some l ∈ data.locations ∧ l.cliName = name) :
    ∃ pre l post, data.locations = pre ++ some l :: post ∧
      (∀ y, some y ∈ pre → y.cliName ≠ name) ∧ l.cliName = name ∧
      (matchSpecifiedLocation data name).2 = l.id := by
  obtain ⟨pre, l, post, he, hpre, hl⟩ := exists_first_match name data.locations hex
  refine ⟨pre, l, post, he, hpre, hl, ?_⟩
  rw [matchSpecifiedLocation_at_first data name pre post l hauto he hpre hl]

/-- C7 at the sample client: `us-east` names two locations and resolves to the
first one. -/
theorem matchSpecifiedLocation_first_in_order_witness :
    "us-east" ≠ "auto" ∧
    (∃ l, some l ∈ sampleClient.data.locations ∧ l.cliName = "us-east") ∧
    ∃ pre l post, sampleClient.data.locations = pre ++ some l :: post ∧
      (∀ y, some y ∈ pre → y.cliName ≠ "us-east") ∧ l.cliName = "us-east" ∧
      (matchSpecifiedLocation sampleClient.data "us-east").2 = l.id :=
  have hex : ∃ l, some l ∈ sampleClient.data.locations ∧ l.cliName = "us-east" :=
    ⟨⟨"us_east_2", "us-east"⟩, by simp [sampleClient], rfl⟩
  ⟨by decide, hex,
    matchSpecifiedLocation_first_in_order sampleClient.data "us-east" (by decide) hex⟩

/-! ## C1: a uniquely named region -/

/-- C1, as stated, fails at the sample client.  Exactly one location is named
`auto`, with id `de_auto`, yet `set region auto` does not request `de_auto`;
exactly one location is named `nowhere`, with the empty id, and
`set region nowhere` builds no request at all. -/
theorem unique_name_not_requested :
    (sampleClient.data.locations.filter (hasCliName "auto") = [some ⟨"de_auto", "auto"⟩] ∧
      ¬ IsRegionRequest
        (buildRpcArgs sampleHelpers sampleClient ["set", "region", "auto"]).2 "de_auto") ∧
    (sampleClient.data.locations.filter (hasCliName "nowhere") = [some ⟨"", "nowhere"⟩] ∧
      ¬ IsRegionRequest
        (buildRpcArgs sampleHelpers sampleClient ["set", "region", "nowhere"]).2 "") := by
  refine ⟨⟨by decide, ?_⟩, ⟨by decide, ?_⟩⟩
  · rintro ⟨patch, h1, h2⟩
    simp [buildRpcArgs, GetSetType.region, matchSpecifiedLocation, GetSetValue.locationAuto,
      QJsonObject.insert] at h1
    subst h1
    simp [QJsonObject.value?] at h2
  · rintro ⟨patch, h1, _⟩
    simp [buildRpcArgs, GetSetType.region, matchSpecifiedLocation, GetSetValue.locationAuto,
      sampleClient, matchLoop] at h1

/-- C1, amended: when the name is not `auto`, exactly one location of the list
has it as CLI name, and that location's id is not empty, `buildRpcArgs` returns
`[patch, true]` where the patch is the single member `location` holding that
id, so the request asks for reconnection. -/
theorem buildRpcArgs_unique_name (h : Helpers) (client : CliClient) (cmd name : String)
    (l : Location) (hauto : name ≠ "auto")
    (hone : client.data.locations.filter (hasCliName name) = [some l]) (hid : l.id ≠ "") :
    (buildRpcArgs h client [cmd, "region", name]).2 =
        .ok [.object [("location", .string l.id)], .bool true] ∧
      IsRegionRequest (buildRpcArgs h client [cmd, "region", name]).2 l.id ∧
      reconnectIfNeeded [.object [("location", .string l.id)], .bool true] = true := by
  obtain ⟨pre, post, he, hpre, hl⟩ := filter_singleton_split name client.data.locations l hone
  have hm := matchSpecifiedLocation_at_first client.data name pre post l hauto he hpre hl
  have hb : (buildRpcArgs h client [cmd, "region", name]).2 =
      .ok [.object [("location", .string l.id)], .bool true] := by
    simp [buildRpcArgs, GetSetType.region, hm, hid, QJsonObject.insert]
  refine ⟨hb, ⟨[("location", .string l.id)], hb, ?_⟩, rfl⟩
  simp [QJsonObject.value?]

/-- C1, amended, at the sample client: `france` names one location, whose id
`fr_paris` is requested. -/
theorem buildRpcArgs_unique_name_witness :
    "france" ≠ "auto" ∧
    sampleClient.data.locations.filter (hasCliName "france") = [some ⟨"fr_paris", "france"⟩] ∧
    "fr_paris" ≠ "" ∧
    (buildRpcArgs sampleHelpers sampleClient ["set", "region", "france"]).2 =
      .ok [.object [("location", .string "fr_paris")], .bool true] :=
  ⟨by decide, by decide, by decide,
    (buildRpcArgs_unique_name sampleHelpers sampleClient "set" "france" ⟨"fr_paris", "france"⟩
      (by decide) (by decide) (by decide)).1⟩

/-! ## C3: an unknown region -/

/-- C3: when the name is not `auto` and no location of the connected client
has it as CLI name (exact string equality), `buildRpcArgs` throws
`CliInvalidArgs`, the run of `exec` ends with `app.exit` of the code mapped
from `CliInvalidArgs`, and its trace holds no RPC call. -/
theorem exec_unknown_region (h : Helpers) (client : CliClient) (reply : QJsonArray → Reply)
    (cmd name : String) (hauto : name ≠ "auto")
    (hno : ∀ l, some l ∈ client.data.locations → l.cliName ≠ name) :
    (buildRpcArgs h client [cmd, "region", name]).2 = .throw .CliInvalidArgs ∧
    (exec h ⟨some client, reply⟩ [cmd, "region", name]).2 =
      .exited (h.mapErrorCode .CliInvalidArgs) ∧
    (exec h ⟨some client, reply⟩ [cmd, "region", name]).1.countP Event.isCall = 0 := by
  have hm := matchSpecifiedLocation_no_match client.data name hauto hno
  have hb : buildRpcArgs h client [cmd, "region", name] =
      ([.readLocations,
        .qWarning [.str "No match found for specified location:", .str name],
        .errln [.str "Unknown region:", .str name]], .throw .CliInvalidArgs) := by
    simp [buildRpcArgs, GetSetType.region, hm]
  refine ⟨by rw [hb], ?_, ?_⟩ <;>
    simp [exec, count, _setSupportedTypes, GetSetType.region, GetSetType.debugLogging,
      onFirstConnected, hb, Event.isCall]

/-- C3 at the sample client: `US-EAST` differs from `us-east` in case only and
is rejected. -/
theorem exec_unknown_region_witness :
    "US-EAST" ≠ "auto" ∧
    (∀ l, some l ∈ sampleClient.data.locations → l.cliName ≠ "US-EAST") ∧
    (exec sampleHelpers ⟨some sampleClient, fun _ => .success⟩
      ["set", "region", "US-EAST"]).2 = .exited 2 ∧
    (exec sampleHelpers ⟨some sampleClient, fun _ => .success⟩
      ["set", "region", "US-EAST"]).1.countP Event.isCall = 0 :=
  have hno : ∀ l, some l ∈ sampleClient.data.locations → l.cliName ≠ "US-EAST" := by
    intro l hl
    simp [sampleClient] at hl
    rcases hl with rfl | rfl | rfl | rfl | rfl <;> decide
  ⟨by decide, hno,
    (exec_unknown_region sampleHelpers sampleClient (fun _ => .success) "set" "US-EAST"
      (by decide) hno).2⟩

/-! ## C4: `set debugLogging` -/

/-- C4: when the value parses to `enabled`, `buildRpcArgs` returns the single
argument `[patch]` whose member `debugLogging` is present and holds the
daemon's default debug logging when `enabled` is true and JSON null when it is
false (never the boolean `false`); the result is the same for every location
list. -/
theorem buildRpcArgs_debugLogging (h : Helpers) (client : CliClient) (cmd v : String)
    (enabled : Bool) (hparse : h.parseBooleanParam v = .ok enabled) :
    ∃ patch : QJsonObject,
      (buildRpcArgs h client [cmd, "debugLogging", v]).2 = .ok [.object patch] ∧
      patch.contains "debugLogging" = true ∧
      patch.value? "debugLogging" =
        some (if enabled then client.settings.defaultDebugLogging else .null) ∧
      (enabled = false → patch.value? "debugLogging" ≠ some (.bool false)) ∧
      ∀ data2 : DaemonData,
        (buildRpcArgs h ⟨data2, client.settings⟩ [cmd, "debugLogging", v]).2 =
          .ok [.object patch] := by
  cases enabled with
  | true =>
    refine ⟨[("debugLogging", client.settings.defaultDebugLogging)], ?_, ?_, ?_, ?_, ?_⟩ <;>
      simp [buildRpcArgs, GetSetType.region, GetSetType.debugLogging, hparse,
        QJsonObject.insert, QJsonObject.value?, QJsonObject.contains]
  | false =>
    refine ⟨[("debugLogging", .null)], ?_, ?_, ?_, ?_, ?_⟩ <;>
      simp [buildRpcArgs, GetSetType.region, GetSetType.debugLogging, hparse,
        QJsonObject.insert, QJsonObject.value?, QJsonObject.contains]

/-- C4 at the sample client: `set debugLogging false` sends the member
`debugLogging` with the value null. -/
theorem buildRpcArgs_debugLogging_witness :
    sampleHelpers.parseBooleanParam "false" = .ok false ∧
    ∃ patch : QJsonObject,
      (buildRpcArgs sampleHelpers sampleClient ["set", "debugLogging", "false"]).2 =
        .ok [.object patch] ∧
      patch.contains "debugLogging" = true ∧
      patch.value? "debugLogging" = some .null ∧
      patch.value? "debugLogging" ≠ some (.bool false) :=
  ⟨rfl,
    match buildRpcArgs_debugLogging sampleHelpers sampleClient "set" "false" false rfl with
    | ⟨patch, hb, hc, hv, hn, _⟩ => ⟨patch, hb, hc, by simpa using hv, hn rfl⟩⟩

/-! ## C5: an unknown setting name -/

/-- C5: for every three-element parameter list whose setting name is no key of
the registry, `exec` throws `CliInvalidArgs` and its trace holds no client
construction, no read of the daemon state and no RPC call. -/
theorem exec_unknown_type (h : Helpers) (d : Daemon) (cmd type value : String)
    (hkey : ∀ e ∈ _setSupportedTypes, e.1 ≠ type) :
    (exec h d [cmd, type, value]).2 = .thrown .CliInvalidArgs ∧
    (exec h d [cmd, type, value]).1.countP Event.isNewClient = 0 ∧
    (exec h d [cmd, type, value]).1.countP Event.isRead = 0 ∧
    (exec h d [cmd, type, value]).1.countP Event.isCall = 0 := by
  have hc : count _setSupportedTypes type = 0 := by
    unfold count
    rw [List.countP_eq_zero]
    intro e he
    simpa using hkey e he
  refine ⟨?_, ?_, ?_, ?_⟩ <;>
    simp [exec, hc, Event.isNewClient, Event.isRead, Event.isCall]

/-- C5 at the sample daemon: `set port 8080` is rejected before any client
exists. -/
theorem exec_unknown_type_witness :
    (∀ e ∈ _setSupportedTypes, e.1 ≠ "port") ∧
    (exec sampleHelpers sampleDaemon ["set", "port", "8080"]).2 = .thrown .CliInvalidArgs ∧
    (exec sampleHelpers sampleDaemon ["set", "port", "8080"]).1.countP Event.isNewClient = 0 :=
  have hkey : ∀ e ∈ _setSupportedTypes, e.1 ≠ "port" := by decide
  ⟨hkey, (exec_unknown_type sampleHelpers sampleDaemon "set" "port" "8080" hkey).1,
    (exec_unknown_type sampleHelpers sampleDaemon "set" "port" "8080" hkey).2.1⟩

/-! ## C6: a wrong argument count -/

/-- C6, as stated, fails at the empty parameter list: `exec` evaluates
`params[0]` for the usage line, which is out of range, and does not reach the
`throw` of `CliInvalidArgs`. -/
theorem empty_params_not_invalid_args :
    ([] : List String).length ≠ 3 ∧
    (exec sampleHelpers sampleDaemon []).2 = .assertFailed ∧
    (exec sampleHelpers sampleDaemon []).2 ≠ .thrown .CliInvalidArgs := by
  refine ⟨by decide, rfl, ?_⟩
  simp [exec]

/-- C6, amended: for every parameter list whose length is not 3, the trace of
`exec` holds no client construction, no read of the daemon state and no RPC
call; when the list is not empty (it starts with the command name), `exec`
throws `CliInvalidArgs`. -/
theorem exec_wrong_count (h : Helpers) (d : Daemon) (params : List String)
    (hlen : params.length ≠ 3) :
    (exec h d params).1.countP Event.isNewClient = 0 ∧
    (exec h d params).1.countP Event.isRead = 0 ∧
    (exec h d params).1.countP Event.isCall = 0 ∧
    (params ≠ [] → (exec h d params).2 = .thrown .CliInvalidArgs) := by
  cases params with
  | nil => simp [exec]
  | cons cmd rest =>
    have he : exec h d (cmd :: rest) =
        ([.errln [.str "Usage:", .str cmd, .str "<type> <value>"]],
          .thrown .CliInvalidArgs) := by
      unfold exec
      rw [if_pos hlen]
      simp
    rw [he]
    simp [Event.isNewClient, Event.isRead, Event.isCall]

/-- C6, amended, at `set region` (the value is missing). -/
theorem exec_wrong_count_witness :
    ["set", "region"].length ≠ 3 ∧
    (exec sampleHelpers sampleDaemon ["set", "region"]).1.countP Event.isNewClient = 0 ∧
    (exec sampleHelpers sampleDaemon ["set", "region"]).1.countP Event.isCall = 0 ∧
    (exec sampleHelpers sampleDaemon ["set", "region"]).2 = .thrown .CliInvalidArgs :=
  have w := exec_wrong_count sampleHelpers sampleDaemon ["set", "region"] (by decide)
  ⟨by decide, w.1, w.2.2.1, w.2.2.2 (by simp)⟩

/-! ## C8: the reconnection flag -/

/-- C8: whenever `buildRpcArgs` returns an argument list, that list carries a
true `reconnectIfNeeded` exactly when the setting name is `region`; for the
setting `debugLogging` the list has the patch as its only element and no
reconnection flag. -/
theorem buildRpcArgs_reconnect_iff_region (h : Helpers) (client : CliClient)
    (params : List String) (rpcArgs : QJsonArray)
    (hok : (buildRpcArgs h client params).2 = .ok rpcArgs) :
    (reconnectIfNeeded rpcArgs = true ↔ params[1]? = some "region") ∧
    (params[1]? = some "debugLogging" →
      rpcArgs.length = 1 ∧ reconnectIfNeeded rpcArgs = false) := by
  match params, hok with
  | [], hok => simp [buildRpcArgs] at hok
  | [_], hok => simp [buildRpcArgs] at hok
  | [_, _], hok => simp [buildRpcArgs] at hok
  | _ :: _ :: _ :: _ :: _, hok => simp [buildRpcArgs] at hok
  | [cmd, type, value], hok =>
    by_cases hr : type = "region"
    · subst hr
      by_cases hid : (matchSpecifiedLocation client.data value).2 = ""
      · simp [buildRpcArgs, GetSetType.region, hid] at hok
      · simp [buildRpcArgs, GetSetType.region, hid] at hok
        subst hok
        simp [reconnectIfNeeded]
    · by_cases hd : type = "debugLogging"
      · subst hd
        cases hp : h.parseBooleanParam value with
        | error c => simp [buildRpcArgs, GetSetType.region, GetSetType.debugLogging, hp] at hok
        | ok b =>
          cases b <;>
            simp [buildRpcArgs, GetSetType.region, GetSetType.debugLogging, hp] at hok <;>
            subst hok <;> simp [reconnectIfNeeded]
      · simp [buildRpcArgs, GetSetType.region, GetSetType.debugLogging, hr, hd] at hok

/-- C8 at the sample client: the request of `set debugLogging true` has one
element and no reconnection flag. -/
theorem buildRpcArgs_reconnect_iff_region_witness :
    (buildRpcArgs sampleHelpers sampleClient ["set", "debugLogging", "true"]).2 =
      .ok [.object [("debugLogging", .array [.string "*.debug=true"])]] ∧
    reconnectIfNeeded [.object [("debugLogging", .array [.string "*.debug=true"])]] = false :=
  have hok : (buildRpcArgs sampleHelpers sampleClient ["set", "debugLogging", "true"]).2 =
      .ok [.object [("debugLogging", .array [.string "*.debug=true"])]] := by
    simp [buildRpcArgs, GetSetType.region, GetSetType.debugLogging, sampleHelpers,
      sampleClient, QJsonObject.insert]
  ⟨hok, ((buildRpcArgs_reconnect_iff_region sampleHelpers sampleClient
    ["set", "debugLogging", "true"] _ hok).2 rfl).2⟩

/-! ## C9: diagnostics of the locally detected failures -/

/-- C10: the keys of the registry are the two setting names on which
`buildRpcArgs` branches, and for every parameter list that passes both checks
of `exec` (length 3, `params[1]` a key of the registry) neither `buildRpcArgs`
nor the run of `exec` stops at a failed assertion. -/
theorem buildRpcArgs_assertions_hold (h : Helpers) (client : CliClient)
    (params : List String) (hlen : params.length = 3)
    (hkey : count _setSupportedTypes (params.getD 1 "") ≠ 0) :
    _setSupportedTypes.map Prod.fst = [GetSetType.debugLogging, GetSetType.region] ∧
    (buildRpcArgs h client params).2 ≠ .assertFailed ∧
    ∀ d : Daemon, (exec h d params).2 ≠ .assertFailed := by
  match params, hlen, hkey with
  | [cmd, type, value], _, hkey =>
    have htype : type = "debugLogging" ∨ type = "region" := by
      by_contra hcon
      push_neg at hcon
      apply hkey
      simp [count, _setSupportedTypes, GetSetType.region, GetSetType.debugLogging,
        List.countP_cons, Ne.symm hcon.1, Ne.symm hcon.2]
    have hb : ∀ c : CliClient, (buildRpcArgs h c [cmd, type, value]).2 ≠ .assertFailed := by
      intro c
      rcases htype with rfl | rfl
      · cases hp : h.parseBooleanParam value with
        | error e => simp [buildRpcArgs, GetSetType.region, GetSetType.debugLogging, hp]
        | ok b => cases b <;> simp [buildRpcArgs, GetSetType.region, GetSetType.debugLogging, hp]
      · by_cases hid : (matchSpecifiedLocation c.data value).2 = "" <;>
          simp [buildRpcArgs, GetSetType.region, hid]
    refine ⟨rfl, hb client, ?_⟩
    intro d
    have hc : ¬ count _setSupportedTypes type = 0 := by simpa using hkey
    cases hconn : d.firstConnected with
    | none => simp [exec, hc, hconn]
    | some c =>
      have := hb c
      simp only [exec, List.length_cons, List.length_nil, ne_eq, not_true_eq_false, if_false,
        List.getD_cons_succ, List.getD_cons_zero, hc, hconn, onFirstConnected]
      cases hr : (buildRpcArgs h c [cmd, type, value]).2 with
      | assertFailed => exact absurd hr this
      | throw e => simp
      | ok a => cases hrep : d.applySettings a <;> simp [hrep]

/-- C10 at the sample client, for `set region france`. -/
theorem buildRpcArgs_assertions_hold_witness :
    ["set", "region", "france"].length = 3 ∧
    count _setSupportedTypes (["set", "region", "france"].getD 1 "") ≠ 0 ∧
    (buildRpcArgs sampleHelpers sampleClient ["set", "region", "france"]).2 ≠ .assertFailed ∧
    (exec sampleHelpers sampleDaemon ["set", "region", "france"]).2 ≠ .assertFailed :=
  have w := buildRpcArgs_assertions_hold sampleHelpers sampleClient
    ["set", "region", "france"] (by decide) (by decide)
  ⟨by decide, by decide, w.2.1, w.2.2 sampleDaemon⟩

end SetCommand
